import Mathlib

/-!
Verification of the multi-agent conversational hub (MCP server) against its
natural-language specification.

The development shallowly embeds the connection/session registry
(`connection_manager.py`), the message handlers (`main.py`), the storage
facade effects that the claims mention (`storage.py`), and the peer client's
reconnect backoff (`jetson/mcp_client.py`).

Modelling conventions:
* Python dicts keyed by `agent_id` become association lists
  `List (String × α)` with insertion-order `set`/`del`/`get` mirroring
  CPython dict semantics (update in place, append when new).
* `datetime.utcnow()` becomes an explicit `now : Nat` parameter threaded by
  the caller; timestamps are naturals (seconds).
* Network sends are attempts recorded in an output list; whether a concrete
  send raises is decided by an oracle `fails : String → Bool`, matching the
  try/except-per-recipient structure of the Python code.
* `connection_manager.py` defines `register_agent` twice; Python keeps the
  later definition, so `register_agent` below is the second (effective) one
  and `register_agent_v1` is the shadowed first one.
-/

namespace MCP

/-! ## Association-list dictionaries (CPython dict semantics) -/

namespace Dict

variable {α : Type}

/-- `d[key]`, returning the first binding (dicts never hold duplicates). -/
def get : List (String × α) → String → Option α
  | [], _ => none
  | (k, v) :: rest, key => if k = key then some v else get rest key

/-- `d[key] = val`: update in place when present, append when new. -/
def set : List (String × α) → String → α → List (String × α)
  | [], key, val => [(key, val)]
  | (k, v) :: rest, key, val =>
    if k = key then (key, val) :: rest else (k, v) :: set rest key val

/-- `del d[key]` (total: no-op when absent). -/
def del : List (String × α) → String → List (String × α)
  | [], _ => []
  | (k, v) :: rest, key =>
    if k = key then del rest key else (k, v) :: del rest key

/-- `key in d`. -/
def contains (d : List (String × α)) (key : String) : Bool :=
  (get d key).isSome

/-- `list(d.keys())`. -/
def keys (d : List (String × α)) : List String := d.map (·.1)

end Dict

/-! ## Data model (`models.py`) -/

/-- `ContextUpdate` pydantic model: a validated context event. -/
structure ContextUpdate where
  agent_id : String
  context_type : String
  data : String
  timestamp : String
  priority : Int
deriving DecidableEq

/-- `ActionRequest` pydantic model. -/
structure ActionRequest where
  requesting_agent : String
  target_agent : String
  action : String
  parameters : String
  request_id : String
deriving DecidableEq

/--
Construction of a `ContextUpdate` as `handle_context_update` performs it:
`priority` defaults to 1 and `timestamp` defaults to the receipt time
(`data.get(..., default)` in `main.py`), then pydantic validates
`priority` against `ge=1, le=5` — out-of-range values raise a
`ValidationError`, they are not clamped.
-/
def mkContextUpdate (agent_id context_type data : String)
    (priority? : Option Int) (timestamp? : Option String) (receipt : String) :
    Except String ContextUpdate :=
  let p := priority?.getD 1
  let ts := timestamp?.getD receipt
  if 1 ≤ p ∧ p ≤ 5 then
    .ok ⟨agent_id, context_type, data, ts, p⟩
  else
    .error "priority out of range"

/-! ## Connection registry state (`connection_manager.py`) -/

/--
One value of the `agent_metadata` dict. The registration payload
(`agent_type`, capabilities, ...) is opaque (`base`); the keys the registry
itself writes are explicit optional fields, `none` meaning the key is absent
from the Python dict.
-/
structure MetaVal where
  base : String
  status : Option String := none
  connectedAt : Option Nat := none
  disconnectedAt : Option Nat := none
  reconnected : Option Bool := none
  reconnectCount : Option Nat := none
deriving DecidableEq

/-- The three dicts owned by `ConnectionManager`. Connection handles are
opaque naturals. -/
structure ConnState where
  active_connections : List (String × Nat)
  agent_metadata : List (String × MetaVal)
  last_heartbeat : List (String × Nat)
deriving DecidableEq

def initConn : ConnState := ⟨[], [], []⟩

/-- `ConnectionManager.connect`: store the handle and stamp a heartbeat. -/
def connect (s : ConnState) (a : String) (ws : Nat) (now : Nat) : ConnState :=
  { s with
    active_connections := Dict.set s.active_connections a ws
    last_heartbeat := Dict.set s.last_heartbeat a now }

/-- `ConnectionManager.disconnect`: drop the handle and the heartbeat entry;
if metadata exists, flip `status` to `"disconnected"` and stamp
`disconnected_at`. -/
def disconnect (s : ConnState) (a : String) (now : Nat) : ConnState :=
  { active_connections := Dict.del s.active_connections a
    agent_metadata :=
      match Dict.get s.agent_metadata a with
      | some m =>
        Dict.set s.agent_metadata a
          { m with status := some "disconnected", disconnectedAt := some now }
      | none => s.agent_metadata
    last_heartbeat := Dict.del s.last_heartbeat a }

/-- `ConnectionManager.update_heartbeat`: unconditionally stamps
`last_heartbeat[agent_id] = now` (the Python code has no existence check). -/
def update_heartbeat (s : ConnState) (a : String) (now : Nat) : ConnState :=
  { s with last_heartbeat := Dict.set s.last_heartbeat a now }

/-- The first (shadowed) `register_agent` definition in
`connection_manager.py`: sets `status`, `connected_at` and `reconnected`,
but is dead code because Python keeps the later definition of the same
method. -/
def register_agent_v1 (s : ConnState) (a : String) (meta : String) (now : Nat) :
    ConnState :=
  { s with
    agent_metadata :=
      Dict.set s.agent_metadata a
        { base := meta
          status := some "connected"
          connectedAt := some now
          reconnected := some (Dict.contains s.agent_metadata a) } }

/-- The second, effective `register_agent` definition: overwrites the whole
metadata dict with the payload plus `connected_at`; every other key
(including `status`, `reconnected` and any reconnect counter) is absent
afterwards. -/
def register_agent (s : ConnState) (a : String) (meta : String) (now : Nat) :
    ConnState :=
  { s with
    agent_metadata :=
      Dict.set s.agent_metadata a { base := meta, connectedAt := some now } }

/-- `ConnectionManager.is_agent_connected`. -/
def is_agent_connected (s : ConnState) (a : String) : Bool :=
  Dict.contains s.active_connections a

/-! ## Outbound messages and delivery primitives -/

/-- The server-pushed wire messages the claims mention. -/
inductive Message where
  | agentTimeout (agentId : String) (timestamp : Nat)
  | contextNotification (fromAgent : String) (context : ContextUpdate)
  | actionResponse (requestId : String) (status : String) (error : String)
  | actionRequestMsg (fromAgent : String) (action : String)
      (parameters : String) (requestId : String)
  | queryError (error : String)
  | pong (serverTime : Nat)
deriving DecidableEq

/-- `ConnectionManager.send_to_agent`: attempt a unicast when the target is
connected; a raising send (per the `fails` oracle) evicts the target. The
returned list records the attempted sends. -/
def send_to_agent (s : ConnState) (a : String) (msg : Message)
    (fails : String → Bool) (now : Nat) : ConnState × List (String × Message) :=
  match Dict.get s.active_connections a with
  | some _ => if fails a then (disconnect s a now, [(a, msg)]) else (s, [(a, msg)])
  | none => (s, [])

/-- `ConnectionManager.broadcast`: attempt a send to every connected agent
other than `exclude` (each recipient in its own try/except, so one failure
never stops the loop), then evict exactly the recipients whose send raised. -/
def broadcast (s : ConnState) (msg : Message) (exclude : Option String)
    (fails : String → Bool) (now : Nat) : ConnState × List (String × Message) :=
  let recipients := s.active_connections.filter (fun p => some p.1 ≠ exclude)
  let attempts := recipients.map (fun p => (p.1, msg))
  let failed := (recipients.filter (fun p => fails p.1)).map (·.1)
  (failed.foldl (fun st a => disconnect st a now) s, attempts)

/-! ## Heartbeat supervisor (`ConnectionManager._monitor_heartbeats`) -/

/-- Timeout window in seconds (`self.heartbeat_timeout = 60`). -/
def heartbeat_timeout : Nat := 60

/-- Result of one supervisor scan: the new registry state, the evicted
agents, and each broadcast call made, recorded with its `exclude`
argument. -/
structure ScanResult where
  state : ConnState
  evicted : List String
  calls : List (Message × Option String)
deriving DecidableEq

/-- One iteration of the `while True` body of `_monitor_heartbeats` at time
`now`: collect every agent whose `now - last_heartbeat > 60`, close its
socket best-effort (no registry effect), then `disconnect` each and
broadcast `agent_timeout` with no exclusion. -/
def monitorScan (s : ConnState) (now : Nat) (fails : String → Bool) :
    ScanResult :=
  let timedOut :=
    (s.last_heartbeat.filter (fun p => heartbeat_timeout < now - p.2)).map (·.1)
  let final := timedOut.foldl
    (fun (acc : ConnState × List (Message × Option String)) a =>
      let s1 := disconnect acc.1 a now
      let s2 := (broadcast s1 (.agentTimeout a now) none fails now).1
      (s2, acc.2 ++ [(Message.agentTimeout a now, none)]))
    (s, [])
  ⟨final.1, timedOut, final.2⟩

/-- Events a single run of the system interleaves, as seen by the registry:
a heartbeat message from agent `a` handled at time `t`, or a supervisor scan
at time `t`. -/
inductive Ev where
  | hb (a : String) (t : Nat)
  | scan (t : Nat)

def stepEv (fails : String → Bool) (s : ConnState) : Ev → ConnState
  | .hb a t => update_heartbeat s a t
  | .scan t => (monitorScan s t fails).state

def run (fails : String → Bool) (s : ConnState) (events : List Ev) : ConnState :=
  events.foldl (stepEv fails) s

/-! ## Storage facade effects (`storage.py`) -/

/-- One row of `actions_log` as `StorageManager.log_action` writes it. -/
structure ActionLogEntry where
  agent_id : String
  action_type : String
  parameters : String
  result : Option String
  status : String
deriving DecidableEq

/-- The storage effects the claims are about: the Redis current-value cache,
the append-only context history, and the actions log. -/
structure StoreState where
  cache : List (String × ContextUpdate)
  history : List ContextUpdate
  actionsLog : List ActionLogEntry
deriving DecidableEq

def cacheKey (c : ContextUpdate) : String :=
  "context:" ++ c.agent_id ++ ":" ++ c.context_type

/-- `StorageManager.cache_context` (Redis `setex`, newest value wins). -/
def cache_context (ss : StoreState) (c : ContextUpdate) : StoreState :=
  { ss with cache := Dict.set ss.cache (cacheKey c) c }

/-- `StorageManager.store_context` (append into `context_history`). -/
def store_context (ss : StoreState) (c : ContextUpdate) : StoreState :=
  { ss with history := ss.history ++ [c] }

/-- `StorageManager.log_action`: status is `"success"` when a result was
supplied, `"pending"` otherwise. -/
def log_action (ss : StoreState) (act : ActionRequest) (result : Option String) :
    StoreState :=
  { ss with
    actionsLog := ss.actionsLog ++
      [{ agent_id := act.requesting_agent
         action_type := act.action
         parameters := act.parameters
         result := result
         status := if result.isSome then "success" else "pending" }] }

/-! ## Message handlers (`main.py`) -/

/-- `handle_context_update`: build the validated `ContextUpdate` (defaults
and pydantic validation via `mkContextUpdate`), write it to the cache and
the history, and broadcast a `context_notification` excluding the sender
exactly when `priority >= 3`. -/
def handle_context_update (cs : ConnState) (ss : StoreState) (agent_id : String)
    (context_type data : String) (priority? : Option Int)
    (timestamp? : Option String) (receipt : String)
    (fails : String → Bool) (now : Nat) :
    Except String (ConnState × StoreState × List (String × Message)) :=
  match mkContextUpdate agent_id context_type data priority? timestamp? receipt with
  | .error e => .error e
  | .ok ctx =>
    let ss2 := store_context (cache_context ss ctx) ctx
    if 3 ≤ ctx.priority then
      let out := broadcast cs (.contextNotification agent_id ctx) (some agent_id)
        fails now
      .ok (out.1, ss2, out.2)
    else
      .ok (cs, ss2, [])

/-- `handle_action_request`: a disconnected target gets the requester an
`action_response{status:error}` carrying the same `request_id` and nothing
else happens; a connected target gets the forwarded envelope after a
pending-status log entry is written. -/
def handle_action_request (cs : ConnState) (ss : StoreState) (sender : String)
    (target action params request_id : String)
    (fails : String → Bool) (now : Nat) :
    ConnState × StoreState × List (String × Message) :=
  if is_agent_connected cs target = false then
    let out := send_to_agent cs sender
      (.actionResponse request_id "error" ("Agent cible non connecte: " ++ target))
      fails now
    (out.1, ss, out.2)
  else
    let act : ActionRequest := ⟨sender, target, action, params, request_id⟩
    let ss2 := log_action ss act none
    let out := send_to_agent cs target
      (.actionRequestMsg sender action params request_id) fails now
    (out.1, ss2, out.2)

/-- The lookups `get_agent_state` can perform against the registry and the
durable store. -/
inductive Lookup where
  | registryMetadata (a : String)
  | registryConnected (a : String)
  | storeAgentInfo (a : String)
deriving DecidableEq

/-- A `query_response` payload for the `get_agent_state` query. -/
inductive QueryResp where
  | err (msg : String)
  | agentState (agent_id : String) (connected : Bool)
      (metadata : Option MetaVal) (dbInfo : Option String)
deriving DecidableEq

/-- `get_agent_state`: `parameters.get("agent_id")` missing (or empty, since
Python tests `if not target_agent`) yields an error `query_response` and no
lookup; otherwise the registry and the store are consulted. The second
component records the lookups performed. -/
def get_agent_state (cs : ConnState) (db : List (String × String))
    (params_agent_id : Option String) : QueryResp × List Lookup :=
  match params_agent_id with
  | none => (.err "agent_id requis", [])
  | some t =>
    if t = "" then (.err "agent_id requis", [])
    else
      (.agentState t (is_agent_connected cs t) (Dict.get cs.agent_metadata t)
        (Dict.get db t),
       [.registryMetadata t, .storeAgentInfo t, .registryConnected t])

/-! ## Peer client reconnect backoff (`jetson/mcp_client.py`) -/

/-- `self.reconnect_delay = 1` (only ever assigned 1: at construction and on
each successful connect). -/
def base_reconnect_delay : ℚ := 1

/-- `self.max_reconnect_delay = 60`. -/
def max_reconnect_delay : ℚ := 60

/-- The delay `_handle_disconnection` computes after incrementing
`reconnect_attempts` to `attempts`:
`min(delay * 2 ** min(attempts - 1, 5) + jitter, max_delay)`. -/
def backoff_delay (attempts : Nat) (jitter : ℚ) : ℚ :=
  min (base_reconnect_delay * 2 ^ (min (attempts - 1) 5) + jitter)
    max_reconnect_delay

/-! ## Registration sequences (for the uniqueness claim) -/

/-- Apply a sequence of `register` operations for one `agent_id`, each with
its metadata payload and arrival time. -/
def registerSeq (s : ConnState) (a : String) : List (String × Nat) → ConnState
  | [] => s
  | (m, t) :: rest => registerSeq (register_agent s a m t) a rest

/-- The state effect of handling one timed-out agent inside the supervisor
scan: disconnect it, then run the `agent_timeout` broadcast (whose failed
recipients are themselves evicted). -/
def scanStepState (fails : String → Bool) (now : Nat) (st : ConnState)
    (a : String) : ConnState :=
  (broadcast (disconnect st a now) (.agentTimeout a now) none fails now).1

/-! ## Dictionary lemmas -/

namespace Dict

variable {α : Type}

theorem get_set_self (d : List (String × α)) (k : String) (v : α) :
    get (set d k v) k = some v := by
  induction d with
  | nil => simp [set, get]
  | cons p rest ih =>
    obtain ⟨pk, pv⟩ := p
    by_cases h : pk = k
    · subst h; simp [set, get]
    · simp [set, get, h, ih]

theorem get_set_ne (d : List (String × α)) (k k' : String) (v : α)
    (hne : k' ≠ k) : get (set d k v) k' = get d k' := by
  induction d with
  | nil => simp [set, get, Ne.symm hne]
  | cons p rest ih =>
    obtain ⟨pk, pv⟩ := p
    by_cases h : pk = k
    · subst h; simp [set, get, Ne.symm hne]
    · by_cases h2 : pk = k'
      · subst h2; simp [set, get, hne, h]
      · simp [set, get, h, h2, ih]

theorem get_del_self (d : List (String × α)) (k : String) :
    get (del d k) k = none := by
  induction d with
  | nil => simp [del, get]
  | cons p rest ih =>
    obtain ⟨pk, pv⟩ := p
    by_cases h : pk = k
    · simp [del, get, h, ih]
    · simp [del, get, h, ih]

theorem get_del_ne (d : List (String × α)) (k k' : String) (hne : k' ≠ k) :
    get (del d k) k' = get d k' := by
  induction d with
  | nil => simp [del, get]
  | cons p rest ih =>
    obtain ⟨pk, pv⟩ := p
    by_cases h : pk = k
    · subst h; simp [del, get, Ne.symm hne, ih]
    · by_cases h2 : pk = k'
      · subst h2; simp [del, get, hne, h]
      · simp [del, get, h, h2, ih]

theorem del_del (d : List (String × α)) (k : String) :
    del (del d k) k = del d k := by
  induction d with
  | nil => simp [del]
  | cons p rest ih =>
    obtain ⟨pk, pv⟩ := p
    by_cases h : pk = k
    · simp [del, h, ih]
    · simp [del, h, ih]

theorem mem_of_get (d : List (String × α)) (k : String) (v : α)
    (h : get d k = some v) : (k, v) ∈ d := by
  induction d with
  | nil => simp [get] at h
  | cons p rest ih =>
    obtain ⟨pk, pv⟩ := p
    by_cases hk : pk = k
    · subst hk
      simp [get] at h
      subst h
      exact List.mem_cons_self _ _
    · simp [get, hk] at h
      exact List.mem_cons_of_mem _ (ih h)

theorem get_of_mem (d : List (String × α)) (k : String) (v : α)
    (hnd : (keys d).Nodup) (h : (k, v) ∈ d) : get d k = some v := by
  induction d with
  | nil => simp at h
  | cons p rest ih =>
    obtain ⟨pk, pv⟩ := p
    have hnd2 : (pk :: keys rest).Nodup := hnd
    have hnd' := List.nodup_cons.1 hnd2
    rcases List.mem_cons.1 h with h1 | h1
    · injection h1 with hk hv
      subst hk; subst hv
      simp [get]
    · have hne : pk ≠ k := by
        intro he
        subst he
        exact hnd'.1 (List.mem_map_of_mem (fun p => p.1) h1)
      simp [get, hne]
      exact ih hnd'.2 h1

theorem get_isSome_iff_mem_keys (d : List (String × α)) (k : String) :
    (get d k).isSome = true ↔ k ∈ keys d := by
  induction d with
  | nil => simp [get, keys]
  | cons p rest ih =>
    obtain ⟨pk, pv⟩ := p
    by_cases h : pk = k
    · subst h; simp [get, keys]
    · simp [get, keys, h, ih, show ¬k = pk from fun he => h he.symm]

theorem mem_keys_set (d : List (String × α)) (k k' : String) (v : α) :
    k' ∈ keys (set d k v) ↔ k' = k ∨ k' ∈ keys d := by
  by_cases h : k' = k
  · subst h
    simp [← get_isSome_iff_mem_keys, get_set_self]
  · rw [← get_isSome_iff_mem_keys, get_set_ne d k k' v h,
      get_isSome_iff_mem_keys]
    simp [h]

theorem nodup_keys_set (d : List (String × α)) (k : String) (v : α)
    (h : (keys d).Nodup) : (keys (set d k v)).Nodup := by
  induction d with
  | nil => simp [set, keys]
  | cons p rest ih =>
    obtain ⟨pk, pv⟩ := p
    have h2 : pk ∉ keys rest ∧ (keys rest).Nodup :=
      List.nodup_cons.1 (show (pk :: keys rest).Nodup from h)
    by_cases hk : pk = k
    · subst hk
      have he : keys (set ((pk, pv) :: rest) pk v) = pk :: keys rest := by
        simp [set, keys]
      rw [he]
      exact List.nodup_cons.2 h2
    · have he : keys (set ((pk, pv) :: rest) k v) = pk :: keys (set rest k v) := by
        simp [set, keys, hk]
      rw [he]
      refine List.nodup_cons.2 ⟨?_, ih h2.2⟩
      intro hmem
      rcases (mem_keys_set rest k pk v).1 hmem with h1 | h1
      · exact hk h1
      · exact h2.1 h1

theorem sublist_keys_del (d : List (String × α)) (k : String) :
    (keys (del d k)).Sublist (keys d) := by
  induction d with
  | nil => simp [del]
  | cons p rest ih =>
    obtain ⟨pk, pv⟩ := p
    by_cases h : pk = k
    · simp only [del, if_pos h, keys, List.map_cons]
      exact ih.cons _
    · simp only [del, if_neg h, keys, List.map_cons]
      exact ih.cons₂ _

theorem nodup_keys_del (d : List (String × α)) (k : String)
    (h : (keys d).Nodup) : (keys (del d k)).Nodup :=
  h.sublist (sublist_keys_del d k)

theorem count_keys_set (d : List (String × α)) (k : String) (v : α)
    (h : (keys d).Nodup) : (keys (set d k v)).count k = 1 :=
  List.count_eq_one_of_mem (nodup_keys_set d k v h)
    ((mem_keys_set d k k v).2 (Or.inl rfl))

end Dict

/-! ## C9: Disconnect is idempotent on connections, heartbeats and status -/

/-- Unfolding lemma: the metadata effect of `disconnect` when the agent has
a metadata record. -/
theorem disconnect_metadata_of_get (s : ConnState) (a : String) (now : Nat)
    (m : MetaVal) (h : Dict.get s.agent_metadata a = some m) :
    (disconnect s a now).agent_metadata
      = Dict.set s.agent_metadata a
          { m with status := some "disconnected", disconnectedAt := some now } := by
  simp [disconnect, h]

/-- Unfolding lemma: `disconnect` leaves the metadata table alone when the
agent has no metadata record. -/
theorem disconnect_metadata_of_none (s : ConnState) (a : String) (now : Nat)
    (h : Dict.get s.agent_metadata a = none) :
    (disconnect s a now).agent_metadata = s.agent_metadata := by
  simp [disconnect, h]

/--
C9: `Disconnect` is idempotent per `agent_id`: for every registry state,
calling `disconnect` twice in succession yields the same connection table,
the same heartbeat table, and the same metadata status for every agent as
calling it once, so invoking it from multiple failure paths causes no
double-counting.
-/
theorem disconnect_idempotent (s : ConnState) (a : String) (t1 t2 : Nat) :
    (disconnect (disconnect s a t1) a t2).active_connections
        = (disconnect s a t1).active_connections
    ∧ (disconnect (disconnect s a t1) a t2).last_heartbeat
        = (disconnect s a t1).last_heartbeat
    ∧ ∀ b, (Dict.get (disconnect (disconnect s a t1) a t2).agent_metadata b).map
          MetaVal.status
        = (Dict.get (disconnect s a t1).agent_metadata b).map MetaVal.status := by
  refine ⟨?_, ?_, ?_⟩
  · simp [disconnect, Dict.del_del]
  · simp [disconnect, Dict.del_del]
  · intro b
    cases hm : Dict.get s.agent_metadata a with
    | none =>
      have h1 := disconnect_metadata_of_none s a t1 hm
      have h2 : Dict.get (disconnect s a t1).agent_metadata a = none := by
        rw [h1]; exact hm
      rw [disconnect_metadata_of_none (disconnect s a t1) a t2 h2]
    | some m =>
      have h1 := disconnect_metadata_of_get s a t1 m hm
      have h2 : Dict.get (disconnect s a t1).agent_metadata a
          = some { m with status := some "disconnected", disconnectedAt := some t1 } := by
        rw [h1]; exact Dict.get_set_self ..
      have h3 := disconnect_metadata_of_get (disconnect s a t1) a t2 _ h2
      by_cases hb : b = a
      · subst hb
        rw [h3, Dict.get_set_self, h2]
        simp
      · rw [h3, Dict.get_set_ne _ _ _ _ hb]

/-! ## C10: `get_agent_state` without an `agent_id` parameter -/

/--
C10: a `get_agent_state` query whose parameters omit `agent_id` returns a
`query_response` carrying an error (it neither raises nor drops the query),
and performs no registry or store lookup.
-/
theorem get_agent_state_missing_id (cs : ConnState) (db : List (String × String)) :
    get_agent_state cs db none = (QueryResp.err "agent_id requis", []) := rfl

/-! ## C7: `update_heartbeat` — corrected -/

/--
C7 counterexample: `update_heartbeat` on an unknown `agent_id` is not a
no-op. On the empty registry, `"ghost"` has no session, yet the call creates
a heartbeat entry and changes the registry state (the Python code stamps
`self.last_heartbeat[agent_id]` unconditionally, with no existence check).
-/
theorem update_heartbeat_creates_entry :
    Dict.get initConn.last_heartbeat "ghost" = none
    ∧ Dict.get (update_heartbeat initConn "ghost" 5).last_heartbeat "ghost" = some 5
    ∧ (update_heartbeat initConn "ghost" 5).last_heartbeat
        ≠ initConn.last_heartbeat := by
  refine ⟨rfl, rfl, ?_⟩
  decide

/--
C7 amended: `update_heartbeat` always stamps `last_heartbeat[agent_id] = now`
— creating the entry even when no session is known — and changes nothing
else: connections and metadata are untouched, and every other agent's
heartbeat entry is unchanged.
-/
theorem update_heartbeat_frame (s : ConnState) (a : String) (now : Nat) :
    (update_heartbeat s a now).active_connections = s.active_connections
    ∧ (update_heartbeat s a now).agent_metadata = s.agent_metadata
    ∧ Dict.get (update_heartbeat s a now).last_heartbeat a = some now
    ∧ ∀ b, b ≠ a → Dict.get (update_heartbeat s a now).last_heartbeat b
        = Dict.get s.last_heartbeat b := by
  exact ⟨rfl, rfl, Dict.get_set_self .., fun b hb => Dict.get_set_ne _ _ _ _ hb⟩

/-- Witness for `update_heartbeat_frame` at a concrete state and agents. -/
theorem update_heartbeat_frame_witness :
    Dict.get (update_heartbeat (connect initConn "a" 1 0) "a" 9).last_heartbeat "a"
        = some 9
    ∧ Dict.get (update_heartbeat (connect initConn "a" 1 0) "a" 9).last_heartbeat "b"
        = Dict.get (connect initConn "a" 1 0).last_heartbeat "b" :=
  ⟨(update_heartbeat_frame (connect initConn "a" 1 0) "a" 9).2.2.1,
   (update_heartbeat_frame (connect initConn "a" 1 0) "a" 9).2.2.2 "b" (by decide)⟩

/-! ## C6: priority defaulting and validation — corrected -/

/--
C6 counterexample: a supplied out-of-range priority is not clamped into
`[1,5]` and the update is not accepted: priority 6 makes the pydantic model
construction fail (`ge=1, le=5` raise a `ValidationError`), so no
`ContextUpdate` is stored at all.
-/
theorem priority_six_rejected :
    mkContextUpdate "agentA" "vision" "d" (some 6) none "t0"
        = Except.error "priority out of range"
    ∧ ¬∃ ctx, mkContextUpdate "agentA" "vision" "d" (some 6) none "t0"
        = Except.ok ctx := by
  refine ⟨by simp [mkContextUpdate], ?_⟩
  rintro ⟨ctx, h⟩
  simp [mkContextUpdate] at h

/--
C6 amended: a missing priority defaults to 1 and a missing timestamp
defaults to the receipt time; a supplied in-range priority is kept verbatim;
a supplied out-of-range priority is rejected with a validation error (the
message is not accepted or stored) rather than clamped.
-/
theorem context_update_defaults_and_validation (aid ct d receipt : String)
    (p? : Option Int) (ts? : Option String) :
    (p? = none →
      mkContextUpdate aid ct d p? ts? receipt
        = Except.ok ⟨aid, ct, d, ts?.getD receipt, 1⟩)
    ∧ (∀ p, p? = some p → 1 ≤ p → p ≤ 5 →
      mkContextUpdate aid ct d p? ts? receipt
        = Except.ok ⟨aid, ct, d, ts?.getD receipt, p⟩)
    ∧ (∀ p, p? = some p → ¬(1 ≤ p ∧ p ≤ 5) →
      mkContextUpdate aid ct d p? ts? receipt
        = Except.error "priority out of range") := by
  refine ⟨?_, ?_, ?_⟩
  · intro hp
    subst hp
    simp [mkContextUpdate]
  · intro p hp h1 h5
    subst hp
    simp [mkContextUpdate, h1, h5]
  · intro p hp hout
    subst hp
    simp [mkContextUpdate, hout]

/-- Witness for `context_update_defaults_and_validation` at concrete
inputs. -/
theorem context_update_defaults_witness :
    mkContextUpdate "a" "vision" "d" none none "t0"
        = Except.ok ⟨"a", "vision", "d", "t0", 1⟩
    ∧ mkContextUpdate "a" "vision" "d" (some 4) (some "t1") "t0"
        = Except.ok ⟨"a", "vision", "d", "t1", 4⟩
    ∧ mkContextUpdate "a" "vision" "d" (some 0) none "t0"
        = Except.error "priority out of range" :=
  ⟨(context_update_defaults_and_validation "a" "vision" "d" "t0" none none).1 rfl,
   (context_update_defaults_and_validation "a" "vision" "d" "t0" (some 4)
      (some "t1")).2.1 4 rfl (by decide) (by decide),
   (context_update_defaults_and_validation "a" "vision" "d" "t0" (some 0)
      none).2.2 0 rfl (by decide)⟩

/-! ## C5: reconnect backoff — corrected -/

/--
C5 counterexample: the claim that for attempts ≥ 7 the delay stays at
60 (± the 1-second jitter) is false. On attempt 7 with jitter 1/2 the code
computes `min(1 * 2^min(6,5) + 1/2, 60) = 32.5`, far below 59.
-/
theorem backoff_attempt7_not_sixty :
    backoff_delay 7 (1/2) = 65/2 ∧ ¬(59 ≤ backoff_delay 7 (1/2)) := by
  have h : backoff_delay 7 (1/2) = 65/2 := by
    unfold backoff_delay base_reconnect_delay max_reconnect_delay
    rw [show min (7 - 1) 5 = 5 from rfl]
    rw [min_eq_left (by norm_num)]
    norm_num
  exact ⟨h, by rw [h]; norm_num⟩

/--
C5 amended: the computed delay on attempt `n` equals
`min(1 * 2^min(n-1, 5) + jitter, 60)` with jitter in `[0,1)`; for attempts
1..6 the delay minus jitter equals `min(2^(n-1), 60) = 2^(n-1)`; for every
attempt n ≥ 7 the delay minus jitter stays at 32 (the exponent is capped at
5), so the 60-second ceiling is never reached.
-/
theorem backoff_schedule (n : Nat) (j : ℚ) (_h0 : 0 ≤ j) (h1 : j < 1) :
    backoff_delay n j
        = min (base_reconnect_delay * 2 ^ (min (n - 1) 5) + j) max_reconnect_delay
    ∧ (1 ≤ n → n ≤ 6 → backoff_delay n j - j = min ((2 : ℚ) ^ (n - 1)) 60)
    ∧ (7 ≤ n → backoff_delay n j - j = 32) := by
  refine ⟨rfl, ?_, ?_⟩
  · intro hn1 hn6
    have hmin5 : min (n - 1) 5 = n - 1 := Nat.min_eq_left (by omega)
    have hpow : (2 : ℚ) ^ (n - 1) ≤ 32 := by
      calc (2 : ℚ) ^ (n - 1) ≤ 2 ^ 5 := by
            apply pow_le_pow_right₀ (by norm_num) (by omega)
        _ = 32 := by norm_num
    have hval : backoff_delay n j = 2 ^ (n - 1) + j := by
      unfold backoff_delay base_reconnect_delay max_reconnect_delay
      rw [hmin5, one_mul, min_eq_left (by linarith)]
    rw [hval, min_eq_left (by linarith)]
    ring
  · intro hn7
    have hmin5 : min (n - 1) 5 = 5 := Nat.min_eq_right (by omega)
    have hval : backoff_delay n j = 32 + j := by
      unfold backoff_delay base_reconnect_delay max_reconnect_delay
      rw [hmin5]
      norm_num
      linarith
    rw [hval]
    ring

/-- Witness for `backoff_schedule` at attempt 3 with jitter 1/2. -/
theorem backoff_schedule_witness :
    (0 : ℚ) ≤ 1/2 ∧ (1 : ℚ)/2 < 1
    ∧ backoff_delay 3 (1/2) - 1/2 = min ((2 : ℚ) ^ (3 - 1)) 60 :=
  ⟨by norm_num, by norm_num,
   (backoff_schedule 3 (1/2) (by norm_num) (by norm_num)).2.1 (by norm_num)
     (by norm_num)⟩

/-! ## C1: registration uniqueness and reconnect bookkeeping — corrected -/

/--
C1 counterexample: re-registering an existing `agent_id` neither marks
`reconnected=true` nor maintains any `reconnect_count`. After two
registrations of `"a"`, the stored metadata is exactly the second payload
plus `connected_at` — `reconnected` and any reconnect counter are absent —
because Python keeps the second, reconnection-oblivious definition of
`register_agent` (and even the shadowed first definition never tracks a
`reconnect_count`).
-/
theorem reregistration_drops_reconnect_tracking :
    Dict.get (register_agent (register_agent initConn "a" "m1" 0) "a" "m2" 5).agent_metadata
        "a" = some { base := "m2", connectedAt := some 5 }
    ∧ ¬((Dict.get (register_agent (register_agent initConn "a" "m1" 0) "a" "m2"
          5).agent_metadata "a").map MetaVal.reconnected = some (some true))
    ∧ ¬((Dict.get (register_agent (register_agent initConn "a" "m1" 0) "a" "m2"
          5).agent_metadata "a").map MetaVal.reconnectCount = some (some 1)) := by
  refine ⟨by decide, by decide, by decide⟩

/--
C1 amended: for every sequence of `register` operations with the same
`agent_id`, exactly one metadata record exists for that `agent_id`
afterwards, and it is the last registration's payload together with its
`connected_at` stamp: re-registration overwrites the metadata, but no
`reconnect_count` is preserved or incremented and `reconnected` is never
set.
-/
theorem register_uniqueness (s : ConnState) (a : String)
    (regs : List (String × Nat)) (m : String) (t : Nat)
    (hwf : (Dict.keys s.agent_metadata).Nodup)
    (hlast : regs.getLast? = some (m, t)) :
    (Dict.keys (registerSeq s a regs).agent_metadata).count a = 1
    ∧ Dict.get (registerSeq s a regs).agent_metadata a
        = some { base := m, connectedAt := some t } := by
  induction regs generalizing s with
  | nil => simp at hlast
  | cons p rest ih =>
    obtain ⟨m', t'⟩ := p
    cases rest with
    | nil =>
      have hm : m' = m ∧ t' = t := by
        simp [List.getLast?] at hlast
        exact ⟨hlast.1, hlast.2⟩
      obtain ⟨hm1, hm2⟩ := hm
      subst hm1; subst hm2
      constructor
      · exact Dict.count_keys_set s.agent_metadata a _ hwf
      · simp [registerSeq, register_agent, Dict.get_set_self]
    | cons q rest' =>
      have hlast' : (q :: rest').getLast? = some (m, t) := by
        rwa [List.getLast?_cons_cons] at hlast
      exact ih (register_agent s a m' t')
        (Dict.nodup_keys_set s.agent_metadata a _ hwf) hlast'

/-- Witness for `register_uniqueness`: three registrations of `"a"` on the
empty registry. -/
theorem register_uniqueness_witness :
    (Dict.keys (registerSeq initConn "a"
        [("m1", 0), ("m2", 3), ("m3", 7)]).agent_metadata).count "a" = 1
    ∧ Dict.get (registerSeq initConn "a"
        [("m1", 0), ("m2", 3), ("m3", 7)]).agent_metadata "a"
        = some { base := "m3", connectedAt := some 7 } :=
  register_uniqueness initConn "a" [("m1", 0), ("m2", 3), ("m3", 7)] "m3" 7
    (by decide) (by decide)

/-! ## Connectivity lemmas for eviction folds -/

theorem is_agent_connected_disconnect_ne (s : ConnState) (a b : String)
    (now : Nat) (h : a ≠ b) :
    is_agent_connected (disconnect s b now) a = is_agent_connected s a := by
  simp [is_agent_connected, Dict.contains, disconnect, Dict.get_del_ne _ _ _ h]

theorem is_agent_connected_disconnect_self (s : ConnState) (a : String)
    (now : Nat) : is_agent_connected (disconnect s a now) a = false := by
  simp [is_agent_connected, Dict.contains, disconnect, Dict.get_del_self]

theorem not_connected_disconnect (s : ConnState) (a b : String) (now : Nat)
    (h : is_agent_connected s a = false) :
    is_agent_connected (disconnect s b now) a = false := by
  by_cases hab : a = b
  · subst hab; exact is_agent_connected_disconnect_self ..
  · rw [is_agent_connected_disconnect_ne s a b now hab]; exact h

theorem hb_get_disconnect_ne (s : ConnState) (a b : String) (now : Nat)
    (h : a ≠ b) :
    Dict.get (disconnect s b now).last_heartbeat a
      = Dict.get s.last_heartbeat a := by
  simp [disconnect, Dict.get_del_ne _ _ _ h]

theorem foldl_disconnect_connected_ne (l : List String) (s : ConnState)
    (a : String) (now : Nat) (h : a ∉ l) :
    is_agent_connected (l.foldl (fun st b => disconnect st b now) s) a
      = is_agent_connected s a := by
  induction l generalizing s with
  | nil => rfl
  | cons b rest ih =>
    have hab : a ≠ b := fun he => h (he ▸ List.mem_cons_self ..)
    rw [List.foldl_cons, ih _ (fun hm => h (List.mem_cons_of_mem _ hm)),
      is_agent_connected_disconnect_ne s a b now hab]

theorem foldl_disconnect_not_connected (l : List String) (s : ConnState)
    (a : String) (now : Nat) (h : is_agent_connected s a = false) :
    is_agent_connected (l.foldl (fun st b => disconnect st b now) s) a = false := by
  induction l generalizing s with
  | nil => exact h
  | cons b rest ih =>
    rw [List.foldl_cons]
    exact ih _ (not_connected_disconnect s a b now h)

theorem foldl_disconnect_mem (l : List String) (s : ConnState) (a : String)
    (now : Nat) (h : a ∈ l) :
    is_agent_connected (l.foldl (fun st b => disconnect st b now) s) a = false := by
  induction l generalizing s with
  | nil => cases h
  | cons b rest ih =>
    rw [List.foldl_cons]
    by_cases hab : a = b
    · subst hab
      exact foldl_disconnect_not_connected rest _ a now
        (is_agent_connected_disconnect_self ..)
    · exact ih _ (List.mem_of_ne_of_mem hab h)

theorem foldl_disconnect_hb_ne (l : List String) (s : ConnState) (a : String)
    (now : Nat) (h : a ∉ l) :
    Dict.get (l.foldl (fun st b => disconnect st b now) s).last_heartbeat a
      = Dict.get s.last_heartbeat a := by
  induction l generalizing s with
  | nil => rfl
  | cons b rest ih =>
    have hab : a ≠ b := fun he => h (he ▸ List.mem_cons_self ..)
    rw [List.foldl_cons, ih _ (fun hm => h (List.mem_cons_of_mem _ hm)),
      hb_get_disconnect_ne s a b now hab]

/-- Unfolding lemma: the state component of `broadcast` is the fold of
`disconnect` over the recipients whose send raised. -/
theorem broadcast_fst (s : ConnState) (msg : Message) (exclude : Option String)
    (fails : String → Bool) (now : Nat) :
    (broadcast s msg exclude fails now).1
      = (((s.active_connections.filter (fun p => some p.1 ≠ exclude)).filter
            (fun p => fails p.1)).map (·.1)).foldl
          (fun st a => disconnect st a now) s := rfl

/-- Unfolding lemma: the attempted sends of `broadcast` are one message per
connected non-excluded agent, independent of which sends fail. -/
theorem broadcast_snd (s : ConnState) (msg : Message) (exclude : Option String)
    (fails : String → Bool) (now : Nat) :
    (broadcast s msg exclude fails now).2
      = (s.active_connections.filter (fun p => some p.1 ≠ exclude)).map
          (fun p => (p.1, msg)) := rfl

/-! ## C8: broadcast fan-out with per-recipient failure isolation -/

/--
C8: `broadcast` attempts delivery to every currently connected session other
than the excluded one; the attempted-delivery list is a function of the
connection table and the exclusion alone, so one recipient's send failure
never prevents the attempt to any other recipient; and every recipient whose
send failed is evicted from the registry after the fan-out.
-/
theorem broadcast_isolation (s : ConnState) (msg : Message)
    (exclude : Option String) (fails : String → Bool) (now : Nat) :
    (broadcast s msg exclude fails now).2
        = (s.active_connections.filter (fun p => some p.1 ≠ exclude)).map
            (fun p => (p.1, msg))
    ∧ (∀ a, is_agent_connected s a = true → some a ≠ exclude →
        (a, msg) ∈ (broadcast s msg exclude fails now).2)
    ∧ (∀ a, is_agent_connected s a = true → some a ≠ exclude → fails a = true →
        is_agent_connected (broadcast s msg exclude fails now).1 a = false) := by
  refine ⟨broadcast_snd .., ?_, ?_⟩
  · intro a hc hex
    obtain ⟨w, hw⟩ := Option.isSome_iff_exists.1 hc
    have hmem : (a, w) ∈ s.active_connections := Dict.mem_of_get _ _ _ hw
    have hmf : (a, w) ∈ s.active_connections.filter (fun p => some p.1 ≠ exclude) :=
      List.mem_filter.2 ⟨hmem, by simpa using hex⟩
    rw [broadcast_snd]
    exact List.mem_map.2 ⟨(a, w), hmf, rfl⟩
  · intro a hc hex hf
    obtain ⟨w, hw⟩ := Option.isSome_iff_exists.1 hc
    have hmem : (a, w) ∈ s.active_connections := Dict.mem_of_get _ _ _ hw
    have hmf : (a, w) ∈ (s.active_connections.filter
        (fun p => some p.1 ≠ exclude)).filter (fun p => fails p.1) :=
      List.mem_filter.2 ⟨List.mem_filter.2 ⟨hmem, by simpa using hex⟩, hf⟩
    rw [broadcast_fst]
    exact foldl_disconnect_mem _ s a now (List.mem_map.2 ⟨(a, w), hmf, rfl⟩)

/-- Witness for `broadcast_isolation`: two connected agents, the send to
`"b"` fails. -/
theorem broadcast_isolation_witness :
    ("b", Message.pong 1) ∈ (broadcast (connect (connect initConn "a" 1 0) "b" 2 0)
        (Message.pong 1) none (fun x => x = "b") 9).2
    ∧ is_agent_connected (broadcast (connect (connect initConn "a" 1 0) "b" 2 0)
        (Message.pong 1) none (fun x => x = "b") 9).1 "b" = false :=
  ⟨(broadcast_isolation (connect (connect initConn "a" 1 0) "b" 2 0)
      (Message.pong 1) none (fun x => x = "b") 9).2.1 "b" (by decide) (by decide),
   (broadcast_isolation (connect (connect initConn "a" 1 0) "b" 2 0)
      (Message.pong 1) none (fun x => x = "b") 9).2.2 "b" (by decide) (by decide)
     (by decide)⟩

/-! ## C3: context-update priority gating -/

/-- No attempt carries key `b` when `b` has no binding in the connection
table. -/
theorem attempts_filter_nil (l : List (String × Nat)) (msg : Message)
    (exclude : Option String) (b : String) (h : b ∉ l.map (·.1)) :
    ((l.filter (fun p => some p.1 ≠ exclude)).map
        (fun p => (p.1, msg))).filter (fun q => q.1 = b) = [] := by
  induction l with
  | nil => rfl
  | cons p rest ih =>
    obtain ⟨pk, pv⟩ := p
    have hpk : ¬pk = b := fun he => h (by simp [he])
    have hrest : b ∉ rest.map (·.1) := fun hm => h (by simp [hm])
    by_cases hex : some pk = exclude
    · simp only [List.filter_cons]
      rw [if_neg (by simp [← hex])]
      exact ih hrest
    · simp only [List.filter_cons]
      rw [if_pos (by simp [hex])]
      simp only [List.map_cons, List.filter_cons]
      rw [if_neg (by simp [hpk])]
      exact ih hrest

/-- With a duplicate-free connection table, a connected, non-excluded agent
receives exactly one attempt in a broadcast fan-out. -/
theorem attempts_filter_one (l : List (String × Nat)) (msg : Message)
    (exclude : Option String) (b : String) (w : Nat)
    (hnd : (l.map (·.1)).Nodup) (hmem : (b, w) ∈ l) (hex : some b ≠ exclude) :
    (((l.filter (fun p => some p.1 ≠ exclude)).map
        (fun p => (p.1, msg))).filter (fun q => q.1 = b)).length = 1 := by
  induction l with
  | nil => cases hmem
  | cons p rest ih =>
    obtain ⟨pk, pv⟩ := p
    have hnd' := List.nodup_cons.1 (show (pk :: rest.map (·.1)).Nodup from hnd)
    rcases List.mem_cons.1 hmem with h1 | h1
    · injection h1 with hk hv
      subst hk
      simp only [List.filter_cons]
      rw [if_pos (by simp [hex])]
      simp only [List.map_cons, List.filter_cons]
      rw [if_pos (by simp)]
      rw [List.length_cons, attempts_filter_nil rest msg exclude b hnd'.1]
      rfl
    · have hpk : ¬pk = b := by
        intro he
        subst he
        exact hnd'.1 (List.mem_map_of_mem (fun p => p.1) h1)
      by_cases hpex : some pk = exclude
      · simp only [List.filter_cons]
        rw [if_neg (by simp [← hpex])]
        exact ih hnd'.2 h1
      · simp only [List.filter_cons]
        rw [if_pos (by simp [hpex])]
        simp only [List.map_cons, List.filter_cons]
        rw [if_neg (by simp [hpk])]
        exact ih hnd'.2 h1

/--
C3: a handled `context_update` is written to both the current-value cache
and the history store; with priority 1 or 2 no broadcast message is
produced, and with priority 3, 4 or 5 exactly one `context_notification` is
sent to every currently connected session other than the sender.
-/
theorem context_update_priority_gating (cs : ConnState) (ss : StoreState)
    (aid ct d receipt : String) (p? : Option Int) (ts? : Option String)
    (fails : String → Bool) (now : Nat) (ctx : ContextUpdate)
    (hwf : (Dict.keys cs.active_connections).Nodup)
    (hok : mkContextUpdate aid ct d p? ts? receipt = .ok ctx) :
    ∃ cs' ss' sent,
      handle_context_update cs ss aid ct d p? ts? receipt fails now
          = .ok (cs', ss', sent)
      ∧ Dict.get ss'.cache (cacheKey ctx) = some ctx
      ∧ ss'.history = ss.history ++ [ctx]
      ∧ (ctx.priority ≤ 2 → sent = [])
      ∧ (3 ≤ ctx.priority →
          sent = (cs.active_connections.filter
                    (fun p => some p.1 ≠ some aid)).map
                   (fun p => (p.1, Message.contextNotification aid ctx))
          ∧ ∀ b, b ≠ aid → is_agent_connected cs b = true →
              (sent.filter (fun q => q.1 = b)).length = 1) := by
  by_cases hp : 3 ≤ ctx.priority
  · refine ⟨(broadcast cs (.contextNotification aid ctx) (some aid) fails now).1,
      store_context (cache_context ss ctx) ctx,
      (broadcast cs (.contextNotification aid ctx) (some aid) fails now).2,
      ?_, ?_, rfl, ?_, ?_⟩
    · simp [handle_context_update, hok, hp]
    · exact Dict.get_set_self ..
    · intro hle; omega
    · intro _
      refine ⟨broadcast_snd .., ?_⟩
      intro b hb hc
      obtain ⟨w, hw⟩ := Option.isSome_iff_exists.1 hc
      rw [broadcast_snd]
      exact attempts_filter_one cs.active_connections _ (some aid) b w hwf
        (Dict.mem_of_get _ _ _ hw) (by simpa using hb)
  · refine ⟨cs, store_context (cache_context ss ctx) ctx, [], ?_, ?_, rfl, ?_, ?_⟩
    · simp [handle_context_update, hok, hp]
    · exact Dict.get_set_self ..
    · intro _; rfl
    · intro h3; exact absurd h3 hp

/-- Witness for `context_update_priority_gating`: sender `"a"` publishes a
priority-4 update with `"b"` and `"c"` connected. -/
theorem context_update_priority_gating_witness :
    ∃ cs' ss' sent,
      handle_context_update (connect (connect (connect initConn "a" 1 0) "b" 2 0)
          "c" 3 0) ⟨[], [], []⟩ "a" "vision" "d" (some 4) (some "t1") "t0"
          (fun _ => false) 9
        = .ok (cs', ss', sent)
      ∧ Dict.get ss'.cache (cacheKey ⟨"a", "vision", "d", "t1", 4⟩)
          = some ⟨"a", "vision", "d", "t1", 4⟩
      ∧ ss'.history = ([] : List ContextUpdate) ++ [⟨"a", "vision", "d", "t1", 4⟩]
      ∧ ((⟨"a", "vision", "d", "t1", 4⟩ : ContextUpdate).priority ≤ 2 → sent = [])
      ∧ (3 ≤ (⟨"a", "vision", "d", "t1", 4⟩ : ContextUpdate).priority →
          sent = ((connect (connect (connect initConn "a" 1 0) "b" 2 0)
                    "c" 3 0).active_connections.filter
                    (fun p => some p.1 ≠ some "a")).map
                   (fun p => (p.1, Message.contextNotification "a"
                      ⟨"a", "vision", "d", "t1", 4⟩))
          ∧ ∀ b, b ≠ "a" →
              is_agent_connected (connect (connect (connect initConn "a" 1 0)
                "b" 2 0) "c" 3 0) b = true →
              (sent.filter (fun q => q.1 = b)).length = 1) :=
  context_update_priority_gating
    (connect (connect (connect initConn "a" 1 0) "b" 2 0) "c" 3 0)
    ⟨[], [], []⟩ "a" "vision" "d" "t0" (some 4) (some "t1") (fun _ => false) 9
    ⟨"a", "vision", "d", "t1", 4⟩ (by decide) (by simp [mkContextUpdate])

/-! ## C4: action-request routing -/

/-- `send_to_agent` to a connected target attempts exactly that one send,
whether or not the send then fails. -/
theorem send_to_agent_snd_connected (s : ConnState) (a : String) (msg : Message)
    (fails : String → Bool) (now : Nat) (h : is_agent_connected s a = true) :
    (send_to_agent s a msg fails now).2 = [(a, msg)] := by
  obtain ⟨w, hw⟩ := Option.isSome_iff_exists.1 h
  cases hf : fails a <;> simp [send_to_agent, hw, hf]

/--
C4: an `action_request` whose target is not connected produces exactly one
`action_response` with status `error` carrying the same `request_id` back to
the requester, forwards nothing to the target, and writes no log entry; a
connected target receives exactly one forwarded `action_request` envelope
(`from_agent`, `action`, `parameters`, `request_id`) and exactly one
`actions_log` entry with status `pending` is written.
-/
theorem action_request_routing (cs : ConnState) (ss : StoreState)
    (sender target action params rid : String) (fails : String → Bool)
    (now : Nat) (hsender : is_agent_connected cs sender = true) :
    (is_agent_connected cs target = false →
      (handle_action_request cs ss sender target action params rid fails now).2.2
          = [(sender, Message.actionResponse rid "error"
              ("Agent cible non connecte: " ++ target))]
      ∧ (handle_action_request cs ss sender target action params rid fails now).2.1
          = ss
      ∧ ∀ m, (target, m)
          ∉ (handle_action_request cs ss sender target action params rid fails now).2.2)
    ∧ (is_agent_connected cs target = true →
      (handle_action_request cs ss sender target action params rid fails now).2.2
          = [(target, Message.actionRequestMsg sender action params rid)]
      ∧ (handle_action_request cs ss sender target action params rid fails
          now).2.1.actionsLog
          = ss.actionsLog ++ [⟨sender, action, params, none, "pending"⟩]) := by
  constructor
  · intro htarget
    have hu : handle_action_request cs ss sender target action params rid fails now
        = ((send_to_agent cs sender (.actionResponse rid "error"
              ("Agent cible non connecte: " ++ target)) fails now).1, ss,
           (send_to_agent cs sender (.actionResponse rid "error"
              ("Agent cible non connecte: " ++ target)) fails now).2) := by
      simp [handle_action_request, htarget]
    rw [hu]
    have hsent := send_to_agent_snd_connected cs sender
      (.actionResponse rid "error" ("Agent cible non connecte: " ++ target))
      fails now hsender
    refine ⟨hsent, rfl, ?_⟩
    intro m hm
    rw [hsent] at hm
    have hts : target = sender := congrArg Prod.fst (List.mem_singleton.1 hm)
    rw [hts, hsender] at htarget
    cases htarget
  · intro htarget
    have hu : handle_action_request cs ss sender target action params rid fails now
        = ((send_to_agent cs target
              (.actionRequestMsg sender action params rid) fails now).1,
           log_action ss ⟨sender, target, action, params, rid⟩ none,
           (send_to_agent cs target
              (.actionRequestMsg sender action params rid) fails now).2) := by
      simp [handle_action_request, htarget]
    rw [hu]
    exact ⟨send_to_agent_snd_connected cs target _ fails now htarget, rfl⟩

/-- Witness for `action_request_routing`: requester `"s"` is connected; the
target `"t"` is absent in the first state and connected in the second. -/
theorem action_request_routing_witness :
    (handle_action_request (connect initConn "s" 1 0) ⟨[], [], []⟩ "s" "t" "act"
        "par" "r1" (fun _ => false) 9).2.2
      = [("s", Message.actionResponse "r1" "error" ("Agent cible non connecte: " ++ "t"))]
    ∧ (handle_action_request (connect (connect initConn "s" 1 0) "t" 2 0)
        ⟨[], [], []⟩ "s" "t" "act" "par" "r1" (fun _ => false) 9).2.2
      = [("t", Message.actionRequestMsg "s" "act" "par" "r1")]
    ∧ (handle_action_request (connect (connect initConn "s" 1 0) "t" 2 0)
        ⟨[], [], []⟩ "s" "t" "act" "par" "r1" (fun _ => false) 9).2.1.actionsLog
      = ([] : List ActionLogEntry) ++ [⟨"s", "act", "par", none, "pending"⟩] :=
  ⟨((action_request_routing (connect initConn "s" 1 0) ⟨[], [], []⟩ "s" "t" "act"
      "par" "r1" (fun _ => false) 9 (by decide)).1 (by decide)).1,
   ((action_request_routing (connect (connect initConn "s" 1 0) "t" 2 0)
      ⟨[], [], []⟩ "s" "t" "act" "par" "r1" (fun _ => false) 9 (by decide)).2
      (by decide)).1,
   ((action_request_routing (connect (connect initConn "s" 1 0) "t" 2 0)
      ⟨[], [], []⟩ "s" "t" "act" "par" "r1" (fun _ => false) 9 (by decide)).2
      (by decide)).2⟩

/-! ## C2: heartbeat supervision machinery -/

/-- The pair-valued fold inside `monitorScan`, split into its state and
call-log components. -/
theorem monitor_fold_spec (fails : String → Bool) (now : Nat) (l : List String)
    (s : ConnState) (cs0 : List (Message × Option String)) :
    l.foldl (fun (acc : ConnState × List (Message × Option String)) a =>
        ((broadcast (disconnect acc.1 a now) (.agentTimeout a now) none fails
            now).1,
         acc.2 ++ [(Message.agentTimeout a now, none)])) (s, cs0)
      = (l.foldl (scanStepState fails now) s,
         cs0 ++ l.map (fun a => (Message.agentTimeout a now, none))) := by
  induction l generalizing s cs0 with
  | nil => simp
  | cons a rest ih => simp [List.foldl_cons, ih, scanStepState]

theorem monitorScan_evicted (s : ConnState) (now : Nat) (fails : String → Bool) :
    (monitorScan s now fails).evicted
      = (s.last_heartbeat.filter
          (fun p => heartbeat_timeout < now - p.2)).map (·.1) := rfl

theorem monitorScan_state (s : ConnState) (now : Nat) (fails : String → Bool) :
    (monitorScan s now fails).state
      = ((s.last_heartbeat.filter
            (fun p => heartbeat_timeout < now - p.2)).map (·.1)).foldl
          (scanStepState fails now) s := by
  show (((s.last_heartbeat.filter
      (fun p => heartbeat_timeout < now - p.2)).map (·.1)).foldl _ (s, [])).1 = _
  rw [monitor_fold_spec]

theorem monitorScan_calls (s : ConnState) (now : Nat) (fails : String → Bool) :
    (monitorScan s now fails).calls
      = ((s.last_heartbeat.filter
            (fun p => heartbeat_timeout < now - p.2)).map (·.1)).map
          (fun a => (Message.agentTimeout a now, none)) := by
  show (((s.last_heartbeat.filter
      (fun p => heartbeat_timeout < now - p.2)).map (·.1)).foldl _ (s, [])).2 = _
  rw [monitor_fold_spec]
  rfl

/-- Membership in the evicted set characterized by the heartbeat table. -/
theorem mem_evicted_iff (s : ConnState) (now : Nat) (fails : String → Bool)
    (a : String) (hwf : (Dict.keys s.last_heartbeat).Nodup) :
    a ∈ (monitorScan s now fails).evicted
      ↔ ∃ h, Dict.get s.last_heartbeat a = some h
          ∧ heartbeat_timeout < now - h := by
  rw [monitorScan_evicted]
  constructor
  · intro hm
    obtain ⟨p, hmem, hp⟩ := List.mem_map.1 hm
    obtain ⟨pk, ph⟩ := p
    have hmf := List.mem_filter.1 hmem
    have hk : pk = a := hp
    subst hk
    exact ⟨ph, Dict.get_of_mem _ _ _ hwf hmf.1, by simpa using hmf.2⟩
  · rintro ⟨h, hget, hlt⟩
    exact List.mem_map.2 ⟨(a, h),
      List.mem_filter.2 ⟨Dict.mem_of_get _ _ _ hget, by simpa using hlt⟩, rfl⟩

/-- Agents with a non-failing send are not evicted by a broadcast, so the
failed-recipient list never contains them. -/
theorem not_mem_failed (l : List (String × Nat)) (exclude : Option String)
    (fails : String → Bool) (b : String) (hfb : fails b = false) :
    b ∉ ((l.filter (fun p => some p.1 ≠ exclude)).filter
          (fun p => fails p.1)).map (·.1) := by
  intro hm
  obtain ⟨p, hp, hpb⟩ := List.mem_map.1 hm
  have hfp := (List.mem_filter.1 hp).2
  rw [show p.1 = b from hpb, hfb] at hfp
  cases hfp

theorem scanStepState_connected_ne (fails : String → Bool) (now : Nat)
    (st : ConnState) (a b : String) (hne : b ≠ a) (hfb : fails b = false) :
    is_agent_connected (scanStepState fails now st a) b
      = is_agent_connected st b := by
  unfold scanStepState
  rw [broadcast_fst,
    foldl_disconnect_connected_ne _ _ _ _ (not_mem_failed _ _ _ _ hfb),
    is_agent_connected_disconnect_ne st b a now hne]

theorem scanStepState_hb_ne (fails : String → Bool) (now : Nat)
    (st : ConnState) (a b : String) (hne : b ≠ a) (hfb : fails b = false) :
    Dict.get (scanStepState fails now st a).last_heartbeat b
      = Dict.get st.last_heartbeat b := by
  unfold scanStepState
  rw [broadcast_fst, foldl_disconnect_hb_ne _ _ _ _ (not_mem_failed _ _ _ _ hfb),
    hb_get_disconnect_ne st b a now hne]

theorem scanStepState_not_connected (fails : String → Bool) (now : Nat)
    (st : ConnState) (a b : String) (h : is_agent_connected st b = false) :
    is_agent_connected (scanStepState fails now st a) b = false := by
  unfold scanStepState
  rw [broadcast_fst]
  exact foldl_disconnect_not_connected _ _ _ _
    (not_connected_disconnect st b a now h)

theorem scanStepState_self (fails : String → Bool) (now : Nat) (st : ConnState)
    (a : String) : is_agent_connected (scanStepState fails now st a) a = false := by
  unfold scanStepState
  rw [broadcast_fst]
  exact foldl_disconnect_not_connected _ _ _ _
    (is_agent_connected_disconnect_self ..)

theorem foldl_scanStep_not_connected (fails : String → Bool) (now : Nat)
    (l : List String) (st : ConnState) (b : String)
    (h : is_agent_connected st b = false) :
    is_agent_connected (l.foldl (scanStepState fails now) st) b = false := by
  induction l generalizing st with
  | nil => exact h
  | cons a rest ih =>
    rw [List.foldl_cons]
    exact ih _ (scanStepState_not_connected fails now st a b h)

theorem foldl_scanStep_mem (fails : String → Bool) (now : Nat) (l : List String)
    (st : ConnState) (a : String) (h : a ∈ l) :
    is_agent_connected (l.foldl (scanStepState fails now) st) a = false := by
  induction l generalizing st with
  | nil => cases h
  | cons b rest ih =>
    rw [List.foldl_cons]
    by_cases hab : a = b
    · subst hab
      exact foldl_scanStep_not_connected fails now rest _ a
        (scanStepState_self fails now st a)
    · exact ih _ (List.mem_of_ne_of_mem hab h)

theorem foldl_scanStep_ne (fails : String → Bool) (now : Nat) (l : List String)
    (st : ConnState) (b : String) (hfb : fails b = false) (h : b ∉ l) :
    is_agent_connected (l.foldl (scanStepState fails now) st) b
        = is_agent_connected st b
    ∧ Dict.get (l.foldl (scanStepState fails now) st).last_heartbeat b
        = Dict.get st.last_heartbeat b := by
  induction l generalizing st with
  | nil => exact ⟨rfl, rfl⟩
  | cons a rest ih =>
    have hba : b ≠ a := fun he => h (he ▸ List.mem_cons_self ..)
    rw [List.foldl_cons]
    obtain ⟨ih1, ih2⟩ := ih _ (fun hm => h (List.mem_cons_of_mem _ hm))
    exact ⟨ih1.trans (scanStepState_connected_ne fails now st a b hba hfb),
      ih2.trans (scanStepState_hb_ne fails now st a b hba hfb)⟩

/-- A scan leaves an agent with a recent heartbeat (or no heartbeat entry)
untouched, as long as that agent's own sends do not fail. -/
theorem monitorScan_preserves (s : ConnState) (now : Nat)
    (fails : String → Bool) (b : String)
    (hwf : (Dict.keys s.last_heartbeat).Nodup) (hfb : fails b = false)
    (hrecent : ∀ h, Dict.get s.last_heartbeat b = some h →
        ¬heartbeat_timeout < now - h) :
    is_agent_connected (monitorScan s now fails).state b = is_agent_connected s b
    ∧ Dict.get (monitorScan s now fails).state.last_heartbeat b
        = Dict.get s.last_heartbeat b := by
  have hnm : b ∉ (monitorScan s now fails).evicted := by
    intro hm
    obtain ⟨h, hget, hlt⟩ := (mem_evicted_iff s now fails b hwf).1 hm
    exact hrecent h hget hlt
  rw [monitorScan_evicted] at hnm
  rw [monitorScan_state]
  exact foldl_scanStep_ne fails now _ s b hfb hnm

/-! ### Heartbeat-key well-formedness is preserved by every step -/

theorem hbNodup_disconnect (s : ConnState) (a : String) (now : Nat)
    (h : (Dict.keys s.last_heartbeat).Nodup) :
    (Dict.keys (disconnect s a now).last_heartbeat).Nodup :=
  Dict.nodup_keys_del _ _ h

theorem hbNodup_foldl_disconnect (l : List String) (s : ConnState) (now : Nat)
    (h : (Dict.keys s.last_heartbeat).Nodup) :
    (Dict.keys ((l.foldl (fun st b => disconnect st b now) s)).last_heartbeat).Nodup := by
  induction l generalizing s with
  | nil => exact h
  | cons b rest ih =>
    rw [List.foldl_cons]
    exact ih _ (hbNodup_disconnect s b now h)

theorem hbNodup_scanStep (fails : String → Bool) (now : Nat) (st : ConnState)
    (a : String) (h : (Dict.keys st.last_heartbeat).Nodup) :
    (Dict.keys (scanStepState fails now st a).last_heartbeat).Nodup := by
  unfold scanStepState
  rw [broadcast_fst]
  exact hbNodup_foldl_disconnect _ _ _ (hbNodup_disconnect st a now h)

theorem hbNodup_foldl_scanStep (fails : String → Bool) (now : Nat)
    (l : List String) (st : ConnState)
    (h : (Dict.keys st.last_heartbeat).Nodup) :
    (Dict.keys ((l.foldl (scanStepState fails now) st)).last_heartbeat).Nodup := by
  induction l generalizing st with
  | nil => exact h
  | cons a rest ih =>
    rw [List.foldl_cons]
    exact ih _ (hbNodup_scanStep fails now st a h)

theorem hbNodup_stepEv (fails : String → Bool) (s : ConnState) (e : Ev)
    (h : (Dict.keys s.last_heartbeat).Nodup) :
    (Dict.keys (stepEv fails s e).last_heartbeat).Nodup := by
  cases e with
  | hb a t => exact Dict.nodup_keys_set _ _ _ h
  | scan t =>
    show (Dict.keys (monitorScan s t fails).state.last_heartbeat).Nodup
    rw [monitorScan_state]
    exact hbNodup_foldl_scanStep fails t _ s h

/-- Trace preservation: when every supervisor scan in the run happens within
the timeout window of the agent's then-current heartbeat — which is what
heartbeating at intervals strictly shorter than the window guarantees — the
agent's connection status is never changed by the run. -/
theorem run_preserves_connected (fails : String → Bool) (a : String)
    (hfa : fails a = false) :
    ∀ (events : List Ev) (s : ConnState),
      (Dict.keys s.last_heartbeat).Nodup →
      (∀ pre t rest h, events = pre ++ Ev.scan t :: rest →
          Dict.get (run fails s pre).last_heartbeat a = some h →
          t - h < heartbeat_timeout) →
      is_agent_connected (run fails s events) a = is_agent_connected s a := by
  intro events
  induction events with
  | nil =>
    intro s _ _
    rfl
  | cons e rest ih =>
    intro s hwf hreg
    have hstep : run fails s (e :: rest) = run fails (stepEv fails s e) rest :=
      List.foldl_cons ..
    rw [hstep]
    have hreg' : ∀ pre t rest' h, rest = pre ++ Ev.scan t :: rest' →
        Dict.get (run fails (stepEv fails s e) pre).last_heartbeat a = some h →
        t - h < heartbeat_timeout := by
      intro pre t rest' h heq hget
      refine hreg (e :: pre) t rest' h (by rw [heq]; rfl) ?_
      rw [show run fails s (e :: pre) = run fails (stepEv fails s e) pre from
        List.foldl_cons ..]
      exact hget
    rw [ih _ (hbNodup_stepEv fails s e hwf) hreg']
    cases e with
    | hb b t => rfl
    | scan t =>
      exact (monitorScan_preserves s t fails a hwf hfa (fun h hget hlt => by
        have := hreg [] t rest h rfl hget
        omega)).1

/--
C2: at each supervisor scan, a session is evicted exactly when
`now - last_heartbeat` exceeds the 60-second timeout window — so it is
evicted on the first scan at which the window is exceeded and on no earlier
scan; an evicted session is disconnected and an `agent_timeout` broadcast
call excluding no one is made for it; a session inside the window is left
untouched by the scan; and over any run of heartbeat and scan events in
which every scan happens strictly within the window of the session's current
heartbeat (as holds when it is refreshed at intervals strictly shorter than
the window), the session is never evicted by the monitor.
-/
theorem heartbeat_eviction (s : ConnState) (now : Nat) (a : String)
    (fails : String → Bool) (s0 : ConnState) (events : List Ev)
    (hwf : (Dict.keys s.last_heartbeat).Nodup)
    (hwf0 : (Dict.keys s0.last_heartbeat).Nodup)
    (hfa : fails a = false)
    (hreg : ∀ pre t rest h, events = pre ++ Ev.scan t :: rest →
        Dict.get (run fails s0 pre).last_heartbeat a = some h →
        t - h < heartbeat_timeout) :
    (a ∈ (monitorScan s now fails).evicted
        ↔ ∃ h, Dict.get s.last_heartbeat a = some h
            ∧ heartbeat_timeout < now - h)
    ∧ (a ∈ (monitorScan s now fails).evicted →
        is_agent_connected (monitorScan s now fails).state a = false
        ∧ (Message.agentTimeout a now, (none : Option String))
            ∈ (monitorScan s now fails).calls)
    ∧ (∀ h, Dict.get s.last_heartbeat a = some h →
        now - h ≤ heartbeat_timeout →
        is_agent_connected (monitorScan s now fails).state a
            = is_agent_connected s a
        ∧ Dict.get (monitorScan s now fails).state.last_heartbeat a = some h)
    ∧ is_agent_connected (run fails s0 events) a = is_agent_connected s0 a := by
  refine ⟨mem_evicted_iff s now fails a hwf, ?_, ?_, ?_⟩
  · intro hm
    constructor
    · rw [monitorScan_state]
      exact foldl_scanStep_mem fails now _ s a (by rwa [monitorScan_evicted] at hm)
    · rw [monitorScan_calls]
      exact List.mem_map.2 ⟨a, by rwa [monitorScan_evicted] at hm, rfl⟩
  · intro h hget hle
    have hrecent : ∀ h', Dict.get s.last_heartbeat a = some h' →
        ¬heartbeat_timeout < now - h' := by
      intro h' hget'
      rw [hget] at hget'
      injection hget' with hh
      omega
    obtain ⟨h1, h2⟩ := monitorScan_preserves s now fails a hwf hfa hrecent
    exact ⟨h1, h2.trans hget⟩
  · exact run_preserves_connected fails a hfa events s0 hwf0 hreg

/-- Witness for `heartbeat_eviction`: agent `"a"` connects with heartbeat at
time 0; a scan at time 100 finds it 100 seconds stale, while a run that
refreshes the heartbeat at time 50 survives a scan at time 80. -/
theorem heartbeat_eviction_witness :
    ("a" ∈ (monitorScan (connect initConn "a" 1 0) 100 (fun _ => false)).evicted
        ↔ ∃ h, Dict.get (connect initConn "a" 1 0).last_heartbeat "a" = some h
            ∧ heartbeat_timeout < 100 - h)
    ∧ is_agent_connected (run (fun _ => false) (connect initConn "a" 1 0)
          [Ev.hb "a" 50, Ev.scan 80]) "a"
        = is_agent_connected (connect initConn "a" 1 0) "a" := by
  have h := heartbeat_eviction (connect initConn "a" 1 0) 100 "a"
    (fun _ => false) (connect initConn "a" 1 0) [Ev.hb "a" 50, Ev.scan 80]
    (by decide) (by decide) rfl ?hreg
  · exact ⟨h.1, h.2.2.2⟩
  case hreg =>
    intro pre t rest h heq hget
    cases pre with
    | nil => simp at heq
    | cons e pre' =>
      cases pre' with
      | nil =>
        have he : Ev.hb "a" 50 = e ∧ 80 = t ∧ rest = [] := by
          simpa using heq
        obtain ⟨he1, he2, he3⟩ := he
        subst he1
        subst he2
        rw [show Dict.get (run (fun _ => false) (connect initConn "a" 1 0)
            [Ev.hb "a" 50]).last_heartbeat "a" = some 50 from by decide] at hget
        injection hget with hh
        subst hh
        decide
      | cons e2 pre'' =>
        have hlen := congrArg List.length heq
        simp at hlen

end MCP
